import Mathlib

/-!
Verification of the dual-viewport map core of riidwansatria/maps-compare2.

The definitions below are a shallow embedding of `src/js/MapManager.js`:
the viewport-sync handler installed by `setupMapSync`, the `loadGeoJSON`
data-load operation, the `ScaleSelector` scale/zoom table and its
`_updateSelect` scan, the `_formatMeasurement` distance/area formatting,
and the `_calculateGeodesicArea` shoelace-style geodesic area.

Camera coordinates are modelled over `ℚ` where the code only copies and
compares them, and over `ℝ` where trigonometry is involved (the geodesic
area).  JavaScript floating point is modelled as exact arithmetic.
-/

namespace MapsCompare

/-! ## Viewport pair and synchronization (`setupMapSync`) -/

/-- One map camera: center `(lat, lng)` plus zoom, as read by `getCenter()`
and `getZoom()` and written by `setView`. -/
structure Camera where
  lat : ℚ
  lng : ℚ
  zoom : ℚ
  deriving DecidableEq

/-- Which of the two Leaflet maps (`this.map1` / `this.map2`) a camera event
concerns. -/
inductive Side where
  | m1
  | m2
  deriving DecidableEq

/-- The sibling viewport of a side. -/
def Side.other : Side → Side
  | .m1 => .m2
  | .m2 => .m1

/-- The mutable state relevant to `setupMapSync`: both cameras and the
`this.syncing` flag. -/
structure SyncState where
  cam1 : Camera
  cam2 : Camera
  syncing : Bool
  deriving DecidableEq

/-- Camera of a given side. -/
def SyncState.cam (st : SyncState) : Side → Camera
  | .m1 => st.cam1
  | .m2 => st.cam2

/-- Overwrite the camera of a given side. -/
def SyncState.setCam (st : SyncState) : Side → Camera → SyncState
  | .m1, c => { st with cam1 := c }
  | .m2, c => { st with cam2 := c }

/-- A call `targetMap.setView(center, zoom, { animate })` issued against the
external Leaflet collaborator. -/
structure SetViewCall where
  target : Side
  cam : Camera
  animate : Bool
  deriving DecidableEq

/-- A record of one `setView` call, together with whether it actually changed
the target camera (`changed = false` means the written value equalled the
current one, in which case Leaflet performs a zero pan and fires no move
event). -/
structure WriteRec where
  target : Side
  cam : Camera
  animate : Bool
  changed : Bool
  deriving DecidableEq

/-- Result of running a handler: the new state, the move events fired by the
external map component as a consequence, and the log of `setView` calls. -/
structure StepResult where
  state : SyncState
  fired : List Side
  log : List WriteRec
  deriving DecidableEq

/-- Model of the external collaborator executing one `setView` call: the
camera is set to the given value; a move event fires on the target iff the
camera actually changed (a `setView` to the identical camera degenerates to a
zero-offset pan, which moves nothing and fires no move event). -/
def applySetView (st : SyncState) (c : SetViewCall) : StepResult :=
  if st.cam c.target = c.cam then
    { state := st.setCam c.target c.cam
      fired := []
      log := [{ target := c.target, cam := c.cam, animate := c.animate, changed := false }] }
  else
    { state := st.setCam c.target c.cam
      fired := [c.target]
      log := [{ target := c.target, cam := c.cam, animate := c.animate, changed := true }] }

/-- The `syncMaps(sourceMap, targetMap)` closure of `setupMapSync`:
`if (!this.syncing) return` and otherwise
`targetMap.setView(sourceMap.getCenter(), sourceMap.getZoom(), { animate: false })`.
Returns the list of `setView` calls it issues. -/
def syncMapsCalls (st : SyncState) (source : Side) : List SetViewCall :=
  if st.syncing = false then []
  else [{ target := source.other, cam := st.cam source, animate := false }]

/-- Execute a list of `setView` calls in order, accumulating fired events and
the write log. -/
def applyCalls : SyncState → List SetViewCall → StepResult
  | st, [] => { state := st, fired := [], log := [] }
  | st, c :: cs =>
    let r := applySetView st c
    let r2 := applyCalls r.state cs
    { state := r2.state, fired := r.fired ++ r2.fired, log := r.log ++ r2.log }

/-- Process one move/zoom event on side `s`: run the `syncMaps` handler that
`setupMapSync` registered for that side and apply its `setView` calls. -/
def processEvent (st : SyncState) (s : Side) : StepResult :=
  applyCalls st (syncMapsCalls st s)

/-- Drain the event queue (single-threaded event loop): process the head
event, enqueue whatever it fires, repeat while fuel lasts.  Returns the final
state, the unprocessed queue, and the accumulated write log. -/
def runQueue : ℕ → SyncState → List Side → SyncState × List Side × List WriteRec
  | 0, st, q => (st, q, [])
  | _ + 1, st, [] => (st, [], [])
  | fuel + 1, st, e :: q =>
    let r := processEvent st e
    let rest := runQueue fuel r.state (q ++ r.fired)
    (rest.1, rest.2.1, r.log ++ rest.2.2)

/-- A user move on side `s`: the external map sets that camera to `c` and
fires one move event on `s`. -/
def userMove (st : SyncState) (s : Side) (c : Camera) : SyncState × List Side :=
  (st.setCam s c, [s])

theorem setCam_syncing (st : SyncState) (s : Side) (c : Camera) :
    (st.setCam s c).syncing = st.syncing := by
  cases s <;> rfl

theorem cam_setCam_self (st : SyncState) (s : Side) (c : Camera) :
    (st.setCam s c).cam s = c := by
  cases s <;> rfl

theorem cam_setCam_other (st : SyncState) (s : Side) (c : Camera) :
    (st.setCam s.other c).cam s = st.cam s := by
  cases s <;> rfl

theorem setCam_self_eq (st : SyncState) (s : Side) :
    st.setCam s (st.cam s) = st := by
  cases s <;> rfl

theorem cam_setCam_untouched (st : SyncState) (s : Side) (c : Camera) :
    (st.setCam s c).cam s.other = st.cam s.other := by
  cases s <;> rfl

theorem other_other (s : Side) : s.other.other = s := by
  cases s <;> rfl

theorem runQueue_nil (fuel : ℕ) (st : SyncState) :
    runQueue fuel st [] = (st, [], []) := by
  cases fuel <;> rfl

/-- C1: for a move/zoom event on either viewport, if `syncing` is false the
handler issues no `setView` call and the sibling is untouched; if `syncing`
is true the sibling camera is set equal to the source camera, the source
camera is untouched, and every issued `setView` call targets the sibling,
carries the source camera, and passes `animate = false`. -/
theorem sync_handler_propagation (st : SyncState) (s : Side) :
    (st.syncing = false → processEvent st s = { state := st, fired := [], log := [] }) ∧
    (st.syncing = true →
      (processEvent st s).state = st.setCam s.other (st.cam s) ∧
      (processEvent st s).state.cam s.other = st.cam s ∧
      (processEvent st s).state.cam s = st.cam s ∧
      ∀ w ∈ (processEvent st s).log,
        w.target = s.other ∧ w.cam = st.cam s ∧ w.animate = false) := by
  constructor
  · intro h
    simp [processEvent, syncMapsCalls, h, applyCalls]
  · intro h
    by_cases hc : st.cam s.other = st.cam s
    · simp [processEvent, syncMapsCalls, h, applyCalls, applySetView, hc,
        cam_setCam_self, cam_setCam_other]
    · simp [processEvent, syncMapsCalls, h, applyCalls, applySetView, hc,
        cam_setCam_self, cam_setCam_other]

/-- Closed instance of `sync_handler_propagation` at a concrete state, for
both values of the `syncing` flag. -/
theorem sync_handler_propagation_witness :
    (processEvent { cam1 := ⟨0, 0, 1⟩, cam2 := ⟨2, 3, 4⟩, syncing := false } Side.m1
      = { state := { cam1 := ⟨0, 0, 1⟩, cam2 := ⟨2, 3, 4⟩, syncing := false },
          fired := [], log := [] }) ∧
    (processEvent { cam1 := ⟨0, 0, 1⟩, cam2 := ⟨2, 3, 4⟩, syncing := true } Side.m1).state
      = { cam1 := ⟨0, 0, 1⟩, cam2 := ⟨0, 0, 1⟩, syncing := true } :=
  ⟨(sync_handler_propagation _ Side.m1).1 rfl,
   ((sync_handler_propagation _ Side.m1).2 rfl).1⟩

/-- C2: while `syncing` is true, a single user move (camera `c` written to
side `s`, one move event fired) drains to the empty queue within two handler
runs: the final state has both cameras equal to `c`, the source camera is
never overwritten with a different value (every logged write targeting the
source is a non-changing write), at most one logged write changes state and
it targets the sibling, and the synchronized state is a fixed point: the echo
handler on the sibling changes nothing and fires no further event. -/
theorem sync_single_corrective_write (st : SyncState) (s : Side) (c : Camera)
    (hsync : st.syncing = true) (fuel : ℕ) (hfuel : 2 ≤ fuel) :
    (runQueue fuel (st.setCam s c) [s]).1 = (st.setCam s c).setCam s.other c ∧
    (runQueue fuel (st.setCam s c) [s]).2.1 = [] ∧
    (runQueue fuel (st.setCam s c) [s]).1.cam s = c ∧
    (∀ w ∈ (runQueue fuel (st.setCam s c) [s]).2.2, w.target = s → w.changed = false) ∧
    ((runQueue fuel (st.setCam s c) [s]).2.2.filter (fun w => w.changed)).length ≤ 1 ∧
    (∀ w ∈ (runQueue fuel (st.setCam s c) [s]).2.2.filter (fun w => w.changed),
      w.target = s.other) ∧
    processEvent ((st.setCam s c).setCam s.other c) s.other
      = { state := (st.setCam s c).setCam s.other c, fired := [],
          log := [{ target := s, cam := c, animate := false, changed := false }] } := by
  obtain ⟨f, rfl⟩ : ∃ f, fuel = f + 1 + 1 := ⟨fuel - 2, by omega⟩
  cases s <;>
    by_cases hc : st.cam2 = c <;>
    by_cases hd : st.cam1 = c <;>
      simp_all [runQueue, runQueue_nil, processEvent, syncMapsCalls, applyCalls,
        applySetView, SyncState.setCam, SyncState.cam, Side.other]

/-- Closed instance of `sync_single_corrective_write`: a concrete user move
on map 1 while syncing, drained with fuel 2. -/
theorem sync_single_corrective_write_witness :
    (runQueue 2
      (({ cam1 := ⟨0, 0, 1⟩, cam2 := ⟨2, 3, 4⟩, syncing := true } : SyncState).setCam
        Side.m1 ⟨5, 6, 7⟩) [Side.m1]).1
      = (({ cam1 := ⟨0, 0, 1⟩, cam2 := ⟨2, 3, 4⟩, syncing := true } : SyncState).setCam
          Side.m1 ⟨5, 6, 7⟩).setCam Side.m1.other ⟨5, 6, 7⟩ :=
  (sync_single_corrective_write _ Side.m1 ⟨5, 6, 7⟩ rfl 2 (by decide)).1

/-! ## Data loading (`loadGeoJSON`) -/

/-- Mutable `MapManager` state relevant to `loadGeoJSON`: the two GeoJSON
feature-group handles (`none` models a `null`, i.e. not-yet-initialized
handle; `some l` a feature group holding the inserted layers), both cameras
and the `syncing` flag. -/
structure MapsState (D : Type) where
  geojsonLayer1 : Option (List D)
  geojsonLayer2 : Option (List D)
  cam1 : Camera
  cam2 : Camera
  syncing : Bool
  deriving DecidableEq

/-- Where an exception may be raised inside the `try` block of `loadGeoJSON`:
while building the `L.geoJSON` layers (`parse`), while reading
`layer1.getBounds()` (`bounds`), in `map1.fitBounds` (`fit1`), or in
`map2.fitBounds` after map 1 has already moved (`fit2`).  `none` means the
operation runs without raising. -/
inductive ThrowPoint where
  | parse
  | bounds
  | fit1
  | fit2
  deriving DecidableEq

/-- Outcome of the `try` block body: the early `return false` after
`console.error("GeoJSON layers are not initialized.")` — the spec
`ViewportsNotInitializedError` failure signal —, an exception propagating to
the `catch`, or the final `return true`. -/
inductive BodyOutcome where
  | viewportsNotInitialized
  | raised
  | success
  deriving DecidableEq

/-- The `try` block of `loadGeoJSON`, parameterized by the external Leaflet
behaviour: `boundsOf data` models `L.geoJSON(data).getBounds()` filtered by
`isValid()` (`none` = invalid), `fitCam b` the camera that `fitBounds(b)`
produces.  Exceptions leave all mutations performed so far in place. -/
def loadBody {D B : Type} (boundsOf : D → Option B) (fitCam : B → Camera)
    (exn : Option ThrowPoint) (st : MapsState D) (data : D) : BodyOutcome × MapsState D :=
  if st.geojsonLayer1.isNone || st.geojsonLayer2.isNone then
    (.viewportsNotInitialized, st)
  else
    let st1 := { st with geojsonLayer1 := some [], geojsonLayer2 := some [] }
    if exn = some .parse then (.raised, st1)
    else
      let st2 := { st1 with geojsonLayer1 := some [data], geojsonLayer2 := some [data] }
      if exn = some .bounds then (.raised, st2)
      else
        match boundsOf data with
        | some b =>
          if exn = some .fit1 then (.raised, st2)
          else
            let st3 := { st2 with cam1 := fitCam b }
            if exn = some .fit2 then (.raised, st3)
            else (.success, { st3 with cam2 := fitCam b })
        | none => (.success, st2)

/-- Embedding of `loadGeoJSON(geojsonData)`: records `wasSyncing = this.syncing`, sets
`this.syncing = false`, runs the `try` body, maps the `catch` to a `false`
result, and restores `this.syncing = wasSyncing` in the `finally` block on
every exit path.  Returns the boolean result and the final state. -/
def loadGeoJSON {D B : Type} (boundsOf : D → Option B) (fitCam : B → Camera)
    (exn : Option ThrowPoint) (st : MapsState D) (data : D) : Bool × MapsState D :=
  let wasSyncing := st.syncing
  let r := loadBody boundsOf fitCam exn { st with syncing := false } data
  (match r.1 with
    | .success => true
    | _ => false,
   { r.2 with syncing := wasSyncing })

theorem loadBody_syncing {D B : Type} (boundsOf : D → Option B) (fitCam : B → Camera)
    (exn : Option ThrowPoint) (st : MapsState D) (data : D) :
    (loadBody boundsOf fitCam exn st data).2.syncing = st.syncing := by
  unfold loadBody
  rcases h : boundsOf data with _ | b <;> split_ifs <;> rfl

/-- C3: for every initial syncing value, dataset, external behaviour and
exception point (including none), `loadGeoJSON` restores the recorded
pre-load `syncing` value on every exit path, and the `try` body itself runs
entirely with `syncing = false`. -/
theorem load_restores_syncing {D B : Type} (boundsOf : D → Option B) (fitCam : B → Camera)
    (exn : Option ThrowPoint) (st : MapsState D) (data : D) :
    (loadGeoJSON boundsOf fitCam exn st data).2.syncing = st.syncing ∧
    (loadBody boundsOf fitCam exn { st with syncing := false } data).2.syncing = false := by
  refine ⟨rfl, ?_⟩
  rw [loadBody_syncing]

/-- C4: if either GeoJSON layer handle is still `null`, the body stops at the
`ViewportsNotInitializedError` failure signal, `loadGeoJSON` returns `false`,
and the state is completely unchanged (no layer cleared or written, no camera
moved, `syncing` back at its pre-call value). -/
theorem load_uninitialized_no_mutation {D B : Type} (boundsOf : D → Option B)
    (fitCam : B → Camera) (exn : Option ThrowPoint) (st : MapsState D) (data : D)
    (h : st.geojsonLayer1 = none ∨ st.geojsonLayer2 = none) :
    (loadBody boundsOf fitCam exn { st with syncing := false } data).1
      = BodyOutcome.viewportsNotInitialized ∧
    loadGeoJSON boundsOf fitCam exn st data = (false, st) := by
  have hb : (st.geojsonLayer1.isNone || st.geojsonLayer2.isNone) = true := by
    rcases h with h | h <;> simp [h]
  have hbody : loadBody boundsOf fitCam exn { st with syncing := false } data
      = (BodyOutcome.viewportsNotInitialized, { st with syncing := false }) := by
    unfold loadBody
    rw [if_pos hb]
  refine ⟨by rw [hbody], ?_⟩
  unfold loadGeoJSON
  rw [hbody]

/-- Closed instance of `load_uninitialized_no_mutation` with layer 1 absent. -/
theorem load_uninitialized_no_mutation_witness :
    loadGeoJSON (D := Unit) (B := Unit) (fun _ => none) (fun _ => ⟨0, 0, 0⟩) none
      { geojsonLayer1 := none, geojsonLayer2 := some [], cam1 := ⟨0, 0, 1⟩,
        cam2 := ⟨2, 3, 4⟩, syncing := true } ()
      = (false,
        { geojsonLayer1 := none, geojsonLayer2 := some [], cam1 := ⟨0, 0, 1⟩,
          cam2 := ⟨2, 3, 4⟩, syncing := true }) :=
  (load_uninitialized_no_mutation _ _ _ _ _ (Or.inl rfl)).2

/-- C9: with both layers initialized and no exception, a dataset whose bounds
are invalid still loads successfully (`true`), replaces the contents of both feature
groups, and leaves both cameras (and `syncing`) untouched. -/
theorem load_invalid_bounds_skips_fit {D B : Type} (boundsOf : D → Option B)
    (fitCam : B → Camera) (st : MapsState D) (data : D)
    (h1 : st.geojsonLayer1.isSome = true) (h2 : st.geojsonLayer2.isSome = true)
    (hb : boundsOf data = none) :
    loadGeoJSON boundsOf fitCam none st data
      = (true, { st with geojsonLayer1 := some [data], geojsonLayer2 := some [data] }) := by
  obtain ⟨xs, hx⟩ := Option.isSome_iff_exists.mp h1
  obtain ⟨ys, hy⟩ := Option.isSome_iff_exists.mp h2
  have hbody : loadBody boundsOf fitCam none { st with syncing := false } data
      = (BodyOutcome.success,
        { st with geojsonLayer1 := some [data],
                  geojsonLayer2 := some [data],
                  syncing := false }) := by
    unfold loadBody
    rw [hb]
    simp [hx, hy]
  unfold loadGeoJSON
  rw [hbody]

/-- Closed instance of `load_invalid_bounds_skips_fit`: loading an empty
dataset (invalid bounds) into initialized layers. -/
theorem load_invalid_bounds_skips_fit_witness :
    loadGeoJSON (D := Unit) (B := Unit) (fun _ => none) (fun _ => ⟨9, 9, 9⟩) none
      { geojsonLayer1 := some [], geojsonLayer2 := some [], cam1 := ⟨0, 0, 1⟩,
        cam2 := ⟨2, 3, 4⟩, syncing := true } ()
      = (true,
        { geojsonLayer1 := some [()], geojsonLayer2 := some [()], cam1 := ⟨0, 0, 1⟩,
          cam2 := ⟨2, 3, 4⟩, syncing := true }) :=
  load_invalid_bounds_skips_fit _ _ _ _ rfl rfl rfl

/-! ## Scale selector (`ScaleSelector`) -/

/-- The `options.scales` table of the `ScaleSelector` control: scale label to
zoom level, in declaration order. -/
def scales : List (String × ℚ) :=
  [("1:500", 39/2),
   ("1:1,000", 19),
   ("1:2,000", 37/2),
   ("1:3,000", 18),
   ("1:25,000", 15),
   ("1:200,000", 12)]

/-- Lookup `zoomForScale`: the zoom stored for a label (the `value` of the select
option created for it); `none` for an unknown label. -/
def zoomForScale (label : String) : Option ℚ :=
  (scales.find? (fun p => p.1 = label)).map Prod.snd

/-- The `_updateSelect` scan: walk the options in order keeping the one whose
zoom has the strictly smallest absolute difference to the current zoom
(`smallestDiff` starts at `Infinity`, modelled by `none`; strict `<` means
the first of equally-distant options wins). -/
def updateSelect (currentZoom : ℚ) : Option String :=
  (scales.foldl
    (fun (acc : Option (String × ℚ)) p =>
      let diff := |currentZoom - p.2|
      match acc with
      | none => some (p.1, diff)
      | some best => if diff < best.2 then some (p.1, diff) else acc)
    none).map Prod.fst

/-- C5: the scale/zoom mapping round-trips: for every entry of the table,
looking up the zoom of the label and scanning the table for the closest zoom
returns the original label. -/
theorem scale_zoom_round_trip :
    ∀ p ∈ scales, zoomForScale p.1 = some p.2 ∧ updateSelect p.2 = some p.1 := by
  intro p hp
  simp only [scales, List.mem_cons, List.not_mem_nil, or_false] at hp
  rcases hp with rfl | rfl | rfl | rfl | rfl | rfl <;>
    refine ⟨by norm_num [zoomForScale, scales] <;> decide,
            by norm_num [updateSelect, scales, abs_eq_max_neg, max_def]⟩

/-- Closed instance of `scale_zoom_round_trip` at the first table entry. -/
theorem scale_zoom_round_trip_witness :
    zoomForScale "1:500" = some (39/2) ∧ updateSelect (39/2) = some "1:500" :=
  scale_zoom_round_trip ("1:500", 39/2) (by simp [scales])

/-! ## Measurement formatting (`_formatMeasurement`) -/

/-- Unit chosen by the area branch of `_formatMeasurement`. -/
inductive AreaUnit where
  | squareMeters
  | hectares
  deriving DecidableEq

/-- The area branch of `_formatMeasurement`:
`if (area > 10000) { ... ha } else { ... m² }`, reporting the displayed
value (`area / 10000` for hectares, `area` for square meters); the
`toFixed(2)` string rendering is abstracted away. -/
def formatArea (area : ℚ) : AreaUnit × ℚ :=
  if area > 10000 then (.hectares, area / 10000) else (.squareMeters, area)

/-- C7 counterexample: an area of exactly 10000 m² does NOT select the
hectare path — the strict `>` of the code sends it to the m² branch. -/
theorem area_format_boundary_counterexample :
    (formatArea 10000).1 = AreaUnit.squareMeters ∧
    (formatArea 10000).1 ≠ AreaUnit.hectares := by
  have h : (formatArea 10000).1 = AreaUnit.squareMeters := by norm_num [formatArea]
  exact ⟨h, by rw [h]; exact fun hcon => nomatch hcon⟩

/-- C7 (amended): the formatter reports square meters (value unchanged) for
areas `≤ 10000` and hectares (value divided by 10000) for areas `> 10000`. -/
theorem area_format_amended (a : ℚ) :
    (a ≤ 10000 → formatArea a = (AreaUnit.squareMeters, a)) ∧
    (10000 < a → formatArea a = (AreaUnit.hectares, a / 10000)) := by
  constructor <;> intro h
  · rw [formatArea, if_neg (not_lt.mpr h)]
  · rw [formatArea, if_pos h]

/-- Closed instance of `area_format_amended` on both sides of the
threshold. -/
theorem area_format_amended_witness :
    formatArea 5 = (AreaUnit.squareMeters, 5) ∧
    formatArea 20000 = (AreaUnit.hectares, 20000 / 10000) :=
  ⟨(area_format_amended 5).1 (by norm_num), (area_format_amended 20000).2 (by norm_num)⟩

/-- The distance loop of `_formatMeasurement`:
`for (i = 0; i < points.length - 1; i++) distance += points[i].distanceTo(points[i+1])`
followed by, for polygons with more than one point,
`distance += points[points.length - 1].distanceTo(points[0])`.
The Leaflet `distanceTo` metric is the abstract parameter `d`. -/
def codeDistance {α M : Type} [AddCommMonoid M] (dflt : α) (d : α → α → M)
    (isPolygon : Bool) (points : List α) : M :=
  (∑ i ∈ Finset.range (points.length - 1), d (points.getD i dflt) (points.getD (i + 1) dflt))
    + (if isPolygon = true ∧ 1 < points.length then
        d (points.getD (points.length - 1) dflt) (points.getD 0 dflt)
      else 0)

/-- Sum of `d` over consecutive pairs of a list (the specification reading
"sum of pairwise distances between consecutive points"). -/
def consecSum {α M : Type} [AddCommMonoid M] (d : α → α → M) : List α → M
  | [] => 0
  | [_] => 0
  | a :: b :: t => d a b + consecSum d (b :: t)

theorem range_pairs_eq_consecSum {α M : Type} [AddCommMonoid M] (dflt : α)
    (d : α → α → M) : ∀ l : List α,
    (∑ i ∈ Finset.range (l.length - 1), d (l.getD i dflt) (l.getD (i + 1) dflt))
      = consecSum d l := by
  intro l
  induction l with
  | nil => simp [consecSum]
  | cons a t ih =>
    cases t with
    | nil => simp [consecSum]
    | cons b t2 =>
      have hlen : (a :: b :: t2).length - 1 = (b :: t2).length - 1 + 1 := by
        simp
      rw [hlen, Finset.sum_range_succ']
      simp only [List.getD_cons_succ, List.getD_cons_zero] at ih ⊢
      rw [ih, consecSum]
      exact add_comm _ _

/-- C8: the computed distance is the sum of pairwise distances between
consecutive points (so an empty or single-point sequence yields 0), and for
a polygon with more than one point the perimeter additionally includes the
distance from the last point back to the first. -/
theorem measurement_distance_spec {α M : Type} [AddCommMonoid M] (dflt : α)
    (d : α → α → M) (points : List α) :
    codeDistance dflt d false points = consecSum d points ∧
    (points.length ≤ 1 → ∀ isPoly : Bool, codeDistance dflt d isPoly points = 0) ∧
    (∀ (a : α) (t : List α), t ≠ [] →
      codeDistance dflt d true (a :: t)
        = consecSum d (a :: t) + d ((a :: t).getLast (List.cons_ne_nil a t)) a) := by
  refine ⟨?_, ?_, ?_⟩
  · rw [codeDistance, if_neg (by simp : ¬(false = true ∧ 1 < points.length)), add_zero,
      range_pairs_eq_consecSum]
  · intro hlen isPoly
    cases points with
    | nil => simp [codeDistance, consecSum]
    | cons a t =>
      cases t with
      | nil => simp [codeDistance, consecSum]
      | cons b t2 => simp at hlen
  · intro a t ht
    cases t with
    | nil => exact absurd rfl ht
    | cons b t2 =>
      have hif : true = true ∧ 1 < (a :: b :: t2).length := ⟨rfl, by simp⟩
      rw [codeDistance, if_pos hif, range_pairs_eq_consecSum]
      have hg : (a :: b :: t2).getD ((a :: b :: t2).length - 1) dflt
          = (a :: b :: t2).getLast (List.cons_ne_nil a (b :: t2)) := by
        rw [List.getD_eq_getElem _ _ (by simp), List.getLast_eq_getElem]
      rw [hg]
      simp

/-- Closed instance of `measurement_distance_spec`: polygon closing edge on a
three-point ring over a concrete metric. -/
theorem measurement_distance_spec_witness :
    codeDistance (M := ℕ) 0 (fun x y => x + y) true [1, 2, 3]
      = consecSum (fun x y => x + y) [1, 2, 3]
        + (fun x y => x + y) ([1, 2, 3].getLast (List.cons_ne_nil 1 [2, 3])) 1 :=
  (measurement_distance_spec 0 (fun x y => x + y) [1, 2, 3]).2.2 1 [2, 3] (by decide)

/-! ## Geodesic area (`_calculateGeodesicArea`) -/

/-- A Leaflet `LatLng`, in degrees, as consumed by `_calculateGeodesicArea`. -/
structure LatLng where
  lat : ℝ
  lng : ℝ

/-- One iteration of the `_calculateGeodesicArea` loop:
`(p1.lng - p2.lng) * (Math.PI / 180) * (2 + Math.sin(p1.lat * Math.PI / 180) + Math.sin(p2.lat * Math.PI / 180))`. -/
noncomputable def areaTerm (p1 p2 : LatLng) : ℝ :=
  (p1.lng - p2.lng) * (Real.pi / 180) *
    (2 + Real.sin (p1.lat * (Real.pi / 180)) + Real.sin (p2.lat * (Real.pi / 180)))

/-- Earth radius in meters, `const R = 6378137`. -/
noncomputable def earthR : ℝ := 6378137

/-- The loop of `_calculateGeodesicArea`: for `i` from 0 to `n - 1`, the term
on `p1 = latLngs[i]` and `p2 = latLngs[(i + 1) % n]`. -/
noncomputable def areaSum (l : List LatLng) : ℝ :=
  ∑ i ∈ Finset.range l.length,
    areaTerm (l.getD i ⟨0, 0⟩) (l.getD ((i + 1) % l.length) ⟨0, 0⟩)

/-- Embedding of `_calculateGeodesicArea`: `Math.abs(area * R * R / 2.0)`. -/
noncomputable def calculateGeodesicArea (l : List LatLng) : ℝ :=
  |areaSum l * earthR * earthR / 2|

/-- Degrees to radians. -/
noncomputable def toRad (x : ℝ) : ℝ := x * (Real.pi / 180)

/-- The specification formula for the geodesic area, written exactly as the
spec states it: `|R² / 2 · Σ (lon_{i+1} − lon_i) · (2 + sin lat_i + sin lat_{i+1})|`
with all angles in radians and cyclic indexing. -/
noncomputable def specAreaFormula (l : List LatLng) : ℝ :=
  |earthR ^ 2 / 2 *
    ∑ i ∈ Finset.range l.length,
      (toRad ((l.getD ((i + 1) % l.length) ⟨0, 0⟩).lng) - toRad ((l.getD i ⟨0, 0⟩).lng)) *
        (2 + Real.sin (toRad ((l.getD i ⟨0, 0⟩).lat))
           + Real.sin (toRad ((l.getD ((i + 1) % l.length) ⟨0, 0⟩).lat)))|

theorem areaTerm_eq_neg_spec (p q : LatLng) :
    areaTerm p q
      = -((toRad q.lng - toRad p.lng) * (2 + Real.sin (toRad p.lat) + Real.sin (toRad q.lat))) := by
  unfold areaTerm toRad
  ring

/-- C6: for every ring of at least one vertex, the computed area equals the
formula of the spec `|R²/2 · Σ (lon_{i+1} − lon_i)(2 + sin lat_i + sin lat_{i+1})|`
in radians with cyclic indexing and `R = 6378137`. -/
theorem geodesic_area_formula (l : List LatLng) (_h : 1 ≤ l.length) :
    calculateGeodesicArea l = specAreaFormula l := by
  have hsum : areaSum l
      = -∑ i ∈ Finset.range l.length,
          (toRad ((l.getD ((i + 1) % l.length) ⟨0, 0⟩).lng) - toRad ((l.getD i ⟨0, 0⟩).lng)) *
            (2 + Real.sin (toRad ((l.getD i ⟨0, 0⟩).lat))
               + Real.sin (toRad ((l.getD ((i + 1) % l.length) ⟨0, 0⟩).lat))) := by
    unfold areaSum
    rw [← Finset.sum_neg_distrib]
    exact Finset.sum_congr rfl fun i _ => areaTerm_eq_neg_spec _ _
  unfold calculateGeodesicArea specAreaFormula
  rw [hsum]
  rw [show ∀ S : ℝ, -S * earthR * earthR / 2 = -(earthR ^ 2 / 2 * S) from fun S => by ring]
  rw [abs_neg]

/-- Closed instance of `geodesic_area_formula` on a one-vertex ring. -/
theorem geodesic_area_formula_witness :
    calculateGeodesicArea [⟨0, 0⟩] = specAreaFormula [⟨0, 0⟩] :=
  geodesic_area_formula [⟨0, 0⟩] (by simp)

/-- The loop term seen as a function of an arbitrary (cyclically reduced)
index. -/
noncomputable def cycTerm (l : List LatLng) (m : ℕ) : ℝ :=
  areaTerm (l.getD (m % l.length) ⟨0, 0⟩) (l.getD ((m + 1) % l.length) ⟨0, 0⟩)

theorem areaSum_eq_cycSum (l : List LatLng) :
    areaSum l = ∑ i ∈ Finset.range l.length, cycTerm l i := by
  unfold areaSum cycTerm
  exact Finset.sum_congr rfl fun i hi => by
    rw [Nat.mod_eq_of_lt (Finset.mem_range.mp hi)]

theorem sum_mod_shift_one (n : ℕ) (g : ℕ → ℝ) :
    ∑ i ∈ Finset.range n, g ((i + 1) % n) = ∑ i ∈ Finset.range n, g (i % n) := by
  cases n with
  | zero => simp
  | succ m =>
    rw [Finset.sum_range_succ, Nat.mod_self]
    have h1 : ∀ i ∈ Finset.range m, g ((i + 1) % (m + 1)) = g (i + 1) := fun i hi => by
      rw [Nat.mod_eq_of_lt (by
        have := Finset.mem_range.mp hi
        omega)]
    have h2 : ∀ i ∈ Finset.range (m + 1), g (i % (m + 1)) = g i := fun i hi => by
      rw [Nat.mod_eq_of_lt (Finset.mem_range.mp hi)]
    rw [Finset.sum_congr rfl h1, Finset.sum_congr rfl h2, Finset.sum_range_succ']

theorem sum_mod_shift (n : ℕ) : ∀ (k : ℕ) (g : ℕ → ℝ),
    ∑ i ∈ Finset.range n, g ((i + k) % n) = ∑ i ∈ Finset.range n, g (i % n) := by
  intro k
  induction k with
  | zero => intro g; simp
  | succ k ih =>
    intro g
    have h1 : ∀ i ∈ Finset.range n,
        g ((i + (k + 1)) % n) = (fun m => g ((m + 1) % n)) ((i + k) % n) := by
      intro i _
      show g ((i + (k + 1)) % n) = g (((i + k) % n + 1) % n)
      rw [Nat.mod_add_mod, ← Nat.add_assoc]
    have h2 : ∀ i ∈ Finset.range n,
        (fun m => g ((m + 1) % n)) (i % n) = g ((i + 1) % n) := by
      intro i _
      show g ((i % n + 1) % n) = g ((i + 1) % n)
      rw [Nat.mod_add_mod]
    rw [Finset.sum_congr rfl h1, ih (fun m => g ((m + 1) % n)),
      Finset.sum_congr rfl h2, sum_mod_shift_one]

theorem getD_rotate (l : List LatLng) (k j : ℕ) (hj : j < l.length) :
    (l.rotate k).getD j ⟨0, 0⟩ = l.getD ((j + k) % l.length) ⟨0, 0⟩ := by
  have hlen : (l.rotate k).length = l.length := List.length_rotate l k
  have hpos : 0 < l.length := Nat.lt_of_le_of_lt (Nat.zero_le j) hj
  rw [List.getD_eq_getElem _ _ (hlen ▸ hj), List.getElem_rotate,
    List.getD_eq_getElem _ _ (Nat.mod_lt _ hpos)]


theorem areaSum_rotate (l : List LatLng) (k : ℕ) :
    areaSum (l.rotate k) = areaSum l := by
  rcases Nat.eq_zero_or_pos l.length with h0 | hpos
  · have hnil : l = [] := List.length_eq_zero.mp h0
    subst hnil
    rw [List.rotate_nil]
  · have h1 : ∀ i ∈ Finset.range l.length,
        areaTerm ((l.rotate k).getD i ⟨0, 0⟩) ((l.rotate k).getD ((i + 1) % l.length) ⟨0, 0⟩)
          = (fun m => cycTerm l m) ((i + k) % l.length) := by
      intro i hi
      have hi' := Finset.mem_range.mp hi
      show _ = cycTerm l ((i + k) % l.length)
      rw [getD_rotate l k i hi', getD_rotate l k ((i + 1) % l.length) (Nat.mod_lt _ hpos)]
      unfold cycTerm
      rw [Nat.mod_eq_of_lt (Nat.mod_lt _ hpos)]
      simp only [Nat.mod_add_mod]
      rw [show i + 1 + k = i + k + 1 from by omega]
    have h3 : ∀ i ∈ Finset.range l.length,
        (fun m => cycTerm l m) (i % l.length) = cycTerm l i := by
      intro i hi
      show cycTerm l (i % l.length) = cycTerm l i
      rw [Nat.mod_eq_of_lt (Finset.mem_range.mp hi)]
    calc areaSum (l.rotate k)
        = ∑ i ∈ Finset.range l.length,
            areaTerm ((l.rotate k).getD i ⟨0, 0⟩)
              ((l.rotate k).getD ((i + 1) % l.length) ⟨0, 0⟩) := by
          unfold areaSum
          rw [List.length_rotate]
      _ = ∑ i ∈ Finset.range l.length, (fun m => cycTerm l m) ((i + k) % l.length) :=
          Finset.sum_congr rfl h1
      _ = ∑ i ∈ Finset.range l.length, (fun m => cycTerm l m) (i % l.length) :=
          sum_mod_shift l.length k (fun m => cycTerm l m)
      _ = ∑ i ∈ Finset.range l.length, cycTerm l i := Finset.sum_congr rfl h3
      _ = areaSum l := (areaSum_eq_cycSum l).symm

theorem getD_reverse (l : List LatLng) (j : ℕ) (hj : j < l.length) :
    l.reverse.getD j ⟨0, 0⟩ = l.getD (l.length - 1 - j) ⟨0, 0⟩ := by
  have hlen : l.reverse.length = l.length := List.length_reverse l
  rw [List.getD_eq_getElem _ _ (hlen ▸ hj), List.getElem_reverse,
    List.getD_eq_getElem _ _ (by omega)]

theorem areaTerm_antisymm (p q : LatLng) : areaTerm p q = -areaTerm q p := by
  unfold areaTerm
  ring

theorem areaSum_reverse (l : List LatLng) : areaSum l.reverse = -areaSum l := by
  rcases Nat.eq_zero_or_pos l.length with h0 | hpos
  · have hnil : l = [] := List.length_eq_zero.mp h0
    subst hnil
    simp [areaSum]
  · have hrev : ∀ i ∈ Finset.range l.length,
        areaTerm (l.reverse.getD i ⟨0, 0⟩) (l.reverse.getD ((i + 1) % l.length) ⟨0, 0⟩)
          = (fun j => -cycTerm l ((j + (l.length - 1)) % l.length)) (l.length - 1 - i) := by
      intro i hi
      have hi' := Finset.mem_range.mp hi
      show _ = -cycTerm l ((l.length - 1 - i + (l.length - 1)) % l.length)
      rw [getD_reverse l i hi', getD_reverse l ((i + 1) % l.length) (Nat.mod_lt _ hpos),
        areaTerm_antisymm]
      unfold cycTerm
      have e2 : ((l.length - 1 - i + (l.length - 1)) % l.length + 1) % l.length
          = l.length - 1 - i := by
        rw [Nat.mod_add_mod, show l.length - 1 - i + (l.length - 1) + 1
            = (l.length - 1 - i) + l.length from by omega,
          Nat.add_mod_right, Nat.mod_eq_of_lt (by omega)]
      have e1 : (l.length - 1 - i + (l.length - 1)) % l.length % l.length
          = l.length - 1 - (i + 1) % l.length := by
        rw [Nat.mod_eq_of_lt (Nat.mod_lt _ hpos)]
        by_cases hc : i + 1 < l.length
        · rw [Nat.mod_eq_of_lt hc,
            show l.length - 1 - i + (l.length - 1) = l.length + (l.length - 1 - (i + 1))
              from by omega,
            Nat.add_mod_left, Nat.mod_eq_of_lt (by omega)]
        · have hin : i + 1 = l.length := by omega
          rw [hin, Nat.mod_self, Nat.sub_zero,
            show l.length - 1 - i + (l.length - 1) = l.length - 1 from by omega,
            Nat.mod_eq_of_lt (by omega)]
      rw [e1, e2]
    have h3 : ∀ j ∈ Finset.range l.length,
        (fun m => cycTerm l m) (j % l.length) = cycTerm l j := by
      intro j hj
      show cycTerm l (j % l.length) = cycTerm l j
      rw [Nat.mod_eq_of_lt (Finset.mem_range.mp hj)]
    calc areaSum l.reverse
        = ∑ i ∈ Finset.range l.length,
            areaTerm (l.reverse.getD i ⟨0, 0⟩) (l.reverse.getD ((i + 1) % l.length) ⟨0, 0⟩) := by
          unfold areaSum
          rw [List.length_reverse]
      _ = ∑ i ∈ Finset.range l.length,
            (fun j => -cycTerm l ((j + (l.length - 1)) % l.length)) (l.length - 1 - i) :=
          Finset.sum_congr rfl hrev
      _ = ∑ j ∈ Finset.range l.length,
            (fun j => -cycTerm l ((j + (l.length - 1)) % l.length)) j :=
          Finset.sum_range_reflect (fun j => -cycTerm l ((j + (l.length - 1)) % l.length))
            l.length
      _ = -∑ j ∈ Finset.range l.length, (fun m => cycTerm l m) ((j + (l.length - 1)) % l.length) := by
          rw [← Finset.sum_neg_distrib]
      _ = -∑ j ∈ Finset.range l.length, (fun m => cycTerm l m) (j % l.length) := by
          rw [sum_mod_shift l.length (l.length - 1) (fun m => cycTerm l m)]
      _ = -∑ j ∈ Finset.range l.length, cycTerm l j := by
          rw [Finset.sum_congr rfl h3]
      _ = -areaSum l := by rw [← areaSum_eq_cycSum]

/-- C10: the geodesic area is invariant under cyclic rotation of the vertex
list of the ring by any offset and under reversal of the ring orientation. -/
theorem geodesic_area_rotation_reversal (l : List LatLng) (k : ℕ) :
    calculateGeodesicArea (l.rotate k) = calculateGeodesicArea l ∧
    calculateGeodesicArea l.reverse = calculateGeodesicArea l := by
  constructor
  · unfold calculateGeodesicArea
    rw [areaSum_rotate]
  · unfold calculateGeodesicArea
    rw [areaSum_reverse,
      show -areaSum l * earthR * earthR / 2 = -(areaSum l * earthR * earthR / 2) from by ring,
      abs_neg]

end MapsCompare
